import Mathlib

/-!
Verification of the data-agent repository's source-driver layer
(`src/data_agent/sources/{sql_source,csv_source,api_source}.py` and
`src/data_agent/registry.py`) against its specification.

The Python code is shallowly embedded: tabular data is a header plus a
list of rows of scalar `Value`s, fallible operations return `Except`,
and the SQL driver's query construction is a pure function from the
fetch arguments to the generated query text plus its bound parameters.
-/

set_option maxRecDepth 4096

deriving instance DecidableEq for Except

namespace DataAgent

/-- A scalar cell value: the embedding of the Python scalars flowing
through the drivers (strings, ints, parsed datetimes, missing). -/
inductive Value where
  | str (s : String)
  | int (n : Int)
  | date (iso : String)
  | null
  deriving DecidableEq

/-- A materialized table: embedding of a `pandas.DataFrame` as an ordered
header and a list of rows (each row listing the cell for each header
position). -/
structure Table where
  header : List String
  rows : List (List Value)
  deriving DecidableEq

/-- Cell of a row at a header position (missing positions read as null). -/
def cellAt (row : List Value) (i : Nat) : Value :=
  row.getD i Value.null

/-- A filter value, as in both the SQL and the file drivers: either a plain
literal (equality filter) or an operator map such as
`\x7b"gte": 10, "lte": 100\x7d`, embedded as an association list in the
Python dict's insertion order. -/
inductive FilterVal where
  | lit (v : Value)
  | ops (m : List (String × Value))
  deriving DecidableEq

/-! ## SQL driver (`sql_source.py`) -/

/-- Characters making up `_SAFE_IDENTIFIER = ^[A-Za-z_][A-Za-z0-9_]*$`:
first char is an ASCII letter or underscore, the rest letters, digits or
underscore. -/
def identCharsOk : List Char → Bool
  | [] => false
  | c :: cs =>
      (c.isAlpha || c = '_') && cs.all (fun d => d.isAlphanum || d = '_')

/-- `_SAFE_IDENTIFIER.match(name)` of `sql_source.py`. Python's `$` also
matches just before a single trailing newline, so a name consisting of
identifier characters followed by one final newline is accepted too. -/
def safeIdentifier (s : String) : Bool :=
  identCharsOk s.data ||
    (match s.data.getLast? with
     | some c => c = '\n' && identCharsOk s.data.dropLast
     | none => false)

/-- `_validate_identifier` of `sql_source.py`: raises `ValueError` unless
the name matches the safe-identifier pattern. -/
def validateIdentifier (name : String) : Except String Unit :=
  if safeIdentifier name then .ok ()
  else .error s!"Invalid SQL identifier: {name}"

/-- `SQLSource._validate_column`: pattern-check the name, then require
membership in the introspected column set — but only when that set is
non-empty (`if valid and col not in valid`). -/
def validateColumn (valid : List String) (col : String) : Except String Unit :=
  match validateIdentifier col with
  | .error e => .error e
  | .ok _ =>
      if !valid.isEmpty && !valid.contains col then
        .error s!"Column {col} not found in table. Valid: {valid}"
      else
        .ok ()

/-- Validate every requested column, left to right, failing on the first
bad one (the `for c in columns: self._validate_column(c)` loop). -/
def validateAll (valid : List String) : List String → Except String Unit
  | [] => .ok ()
  | c :: rest =>
      match validateColumn valid c with
      | .error e => .error e
      | .ok _ => validateAll valid rest

/-- The operator translation table
`\x7b"gte": ">=", "lte": "<=", "gt": ">", "lt": "<", "eq": "="\x7d.get(op)`. -/
def sqlOpFor (op : String) : Option String :=
  if op = "gte" then some ">="
  else if op = "lte" then some "<="
  else if op = "gt" then some ">"
  else if op = "lt" then some "<"
  else if op = "eq" then some "="
  else none

/-- Conditions and parameters contributed by one operator-map filter entry
(`for op, val in value.items(): ... if sql_op: ...`); operators with no
translation are skipped. -/
def condsForOps (i : Nat) (col : String) :
    List (String × Value) → List String × List (String × Value)
  | [] => ([], [])
  | (op, val) :: rest =>
      let (cs, ps) := condsForOps i col rest
      match sqlOpFor op with
      | some so => (s!"{col} {so} :p{i}_{op}" :: cs, (s!"p{i}_{op}", val) :: ps)
      | none => (cs, ps)

/-- The filter loop of `SQLSource.fetch` (lines 82–96): validates each
filter column, then emits one parameterized condition per recognized
operator (or a parameterized equality for a plain literal), numbering
parameters by the entry's position. -/
def buildConds (valid : List String) :
    Nat → List (String × FilterVal) →
    Except String (List String × List (String × Value))
  | _, [] => .ok ([], [])
  | i, (col, fv) :: rest =>
      match validateColumn valid col with
      | .error e => .error e
      | .ok _ =>
          let (cs, ps) :=
            match fv with
            | .lit v => ([s!"{col} = :p{i}"], [(s!"p{i}", v)])
            | .ops m => condsForOps i col m
          match buildConds valid (i + 1) rest with
          | .error e => .error e
          | .ok (cs2, ps2) => .ok (cs ++ cs2, ps ++ ps2)

/-- Join a non-empty list of strings with a separator (`sep.join(xs)`). -/
def joinSep (sep : String) : List String → String
  | [] => ""
  | [x] => x
  | x :: y :: rest => x ++ sep ++ joinSep sep (y :: rest)

/-- Embedding of the SQL driver configuration: the optional raw query
override, the optional default table, and the lazily introspected column
set of that table (`_get_valid_columns`). -/
structure SQLConfig where
  defaultQuery : Option String
  table : Option String
  validColumns : List String
  deriving DecidableEq

/-- `ob.startswith("-")` / `ob[1:]` of the ordering code: returns the sort
column and `true` for ascending. -/
def parseOrderSpec (s : String) : String × Bool :=
  match s.data with
  | '-' :: rest => (String.mk rest, false)
  | _ => (s, true)

/-- The `ORDER BY` step of `SQLSource.fetch` (lines 102–109): `if
order_by:` is Python truthiness, so an absent or empty-string spec skips
ordering entirely; otherwise strip the direction, validate the sort
column, and append the clause. -/
def buildOrderClause (valid : List String) (q1 : String)
    (orderBy : Option String) : Except String String :=
  match orderBy with
  | none => .ok q1
  | some ob =>
      if ob.data.isEmpty then .ok q1
      else
        let sortCol := (parseOrderSpec ob).1
        let dir := if (parseOrderSpec ob).2 then "ASC" else "DESC"
        match validateColumn valid sortCol with
        | .error e => .error e
        | .ok _ => .ok (q1 ++ s!" ORDER BY {sortCol} {dir}")

/-- The `LIMIT` step of `SQLSource.fetch` (lines 112–113): `if limit:` is
Python truthiness, so 0 (like `None`) appends nothing; a non-zero limit is
interpolated as a coerced integer. -/
def appendLimit (q2 : String) (limit : Option Int) : String :=
  match limit with
  | none => q2
  | some n => if n ≠ 0 then q2 ++ s!" LIMIT {n}" else q2

/-- `f"SELECT {col_str} FROM {table}"` with `col_str` being `*` for an
empty/absent column list and the comma-join otherwise. -/
def selectBase (columns : List String) (tbl : String) : String :=
  if columns.isEmpty then s!"SELECT * FROM {tbl}"
  else "SELECT " ++ joinSep ", " columns ++ " FROM " ++ tbl

/-- Attach `" WHERE " + " AND ".join(conditions)` when any condition was
generated. -/
def withWhere (base : String) (conds : List String) : String :=
  if conds.isEmpty then base
  else base ++ " WHERE " ++ joinSep " AND " conds

/-- Query construction of `SQLSource.fetch` (lines 64–115): with a raw
`query` configured it is used verbatim with no parameters; otherwise the
table name and every column mentioned in `columns`, `filters` and
`order_by` are validated, filter values are emitted as named parameters
(`:pI` / `:pI_op`), and a truthy `limit` is appended as a coerced
integer. An empty `columns`/`filters` list behaves like `None` (Python
truthiness). Returns the query text together with its bound parameters,
or the validation error raised before anything reaches the engine. -/
def buildQueryTable (valid : List String) (tbl : String)
    (columns : List String) (filters : List (String × FilterVal))
    (limit : Option Int) (orderBy : Option String) :
    Except String (String × List (String × Value)) :=
  match validateIdentifier tbl with
  | .error e => .error e
  | .ok _ =>
    match validateAll valid columns with
    | .error e => .error e
    | .ok _ =>
      match buildConds valid 0 filters with
      | .error e => .error e
      | .ok (conds, ps) =>
        match buildOrderClause valid
            (withWhere (selectBase columns tbl) conds) orderBy with
        | .error e => .error e
        | .ok q2 => .ok (appendLimit q2 limit, ps)

/-- Python truthiness of an optional string: `None` and the empty string
are both falsy. -/
def truthyStr : Option String → Option String
  | some q => if q.data.isEmpty then none else some q
  | none => none

/-- Dispatch of `SQLSource.fetch` on the configuration: `if
self.default_query:` / `elif self.table:` are truthiness tests (an
empty-string query or table falls through like an absent one); a truthy
raw query is used verbatim with no parameters; otherwise the table
branch builds the validated, parameterized query; with neither, a
`ValueError`. -/
def buildQuery (cfg : SQLConfig) (columns : List String)
    (filters : List (String × FilterVal)) (limit : Option Int)
    (orderBy : Option String) :
    Except String (String × List (String × Value)) :=
  match truthyStr cfg.defaultQuery with
  | some q => .ok (q, [])
  | none =>
    match truthyStr cfg.table with
    | none => .error "Either 'table' or 'query' must be configured"
    | some tbl => buildQueryTable cfg.validColumns tbl columns filters limit orderBy

/-- `SQLSource.fetch` with the backend execution abstracted: the engine
(`exec`) receives exactly the built query text and bound parameters; a
validation error means the engine is never invoked. -/
def sqlFetch (exec : String → List (String × Value) → Table)
    (cfg : SQLConfig) (columns : List String)
    (filters : List (String × FilterVal)) (limit : Option Int)
    (orderBy : Option String) : Except String Table :=
  match buildQuery cfg columns filters limit orderBy with
  | .error e => .error e
  | .ok (q, ps) => .ok (exec q ps)

/-- The value-independent shape of a filter expression: the column keys
and, for operator maps, the operator keys. -/
def filterShape (filters : List (String × FilterVal)) :
    List (String × Option (List String)) :=
  filters.map (fun p =>
    (p.1, match p.2 with
          | .lit _ => none
          | .ops m => some (m.map Prod.fst)))

/-! ## File driver (`csv_source.py`) and HTTP driver (`api_source.py`) -/

/-- Lexicographic strict order on character lists (string comparison). -/
def charsLt : List Char → List Char → Bool
  | [], [] => false
  | [], _ :: _ => true
  | _ :: _, [] => false
  | a :: as, b :: bs => a < b || (a = b && charsLt as bs)

/-- `x <= y` on cells, as pandas elementwise comparison: defined within one
comparable kind; any comparison involving a missing value is false, and
mixed-kind comparisons are modeled as false. -/
def valueLe : Value → Value → Bool
  | .int a, .int b => a ≤ b
  | .str a, .str b => charsLt a.data b.data || a == b
  | .date a, .date b => charsLt a.data b.data || a == b
  | _, _ => false

/-- `x < y` on cells, same conventions as valueLe. -/
def valueLt : Value → Value → Bool
  | .int a, .int b => a < b
  | .str a, .str b => charsLt a.data b.data
  | .date a, .date b => charsLt a.data b.data
  | _, _ => false

/-- Elementwise `==`: false when either side is missing (NaN semantics). -/
def valueEqB : Value → Value → Bool
  | .null, _ => false
  | _, .null => false
  | a, b => a == b

/-- `astype(str)` coercion of one cell. -/
def valueToStr : Value → String
  | .str s => s
  | .int n => toString n
  | .date s => s
  | .null => "nan"

/-- Does the whole pattern match at the head of the list? -/
def startsWithChars : List Char → List Char → Bool
  | [], _ => true
  | _ :: _, [] => false
  | a :: ps, b :: bs => a == b && startsWithChars ps bs

/-- Does the pattern match at the end of the list? -/
def endsWithChars (pat s : List Char) : Bool :=
  startsWithChars pat.reverse s.reverse

/-- Does `pat` occur as a contiguous substring of `hay`? -/
def subChars (hay pat : List Char) : Bool :=
  match hay with
  | [] => pat.isEmpty
  | _ :: t => startsWithChars pat hay || subChars t pat

/-- `.str.contains(pat, case=False)` modeled as case-insensitive substring
search (regex metacharacters in the pattern are not modeled; the spec
describes the operator as substring match). -/
def strContainsCI (cell pat : String) : Bool :=
  subChars (cell.data.map Char.toLower) (pat.data.map Char.toLower)

/-- Header position of a column (`df.columns.get_loc`). -/
def colIndex (t : Table) (c : String) : Nat :=
  t.header.indexOf c

/-- Keep the rows whose cell at position `i` satisfies `p`
(boolean-mask filtering `df = df[mask]`). -/
def filterRowsBy (t : Table) (i : Nat) (p : Value → Bool) : Table :=
  { t with rows := t.rows.filter (fun r => p (cellAt r i)) }

/-- The operator-map branch of the file driver's filter code: one
conditional re-filter per recognized key, in the source's fixed order
gte, lte, gt, lt, eq, contains. Returns the table plus whether any
re-assignment of `df` happened. -/
def applyOpsFilters (t : Table) (i : Nat) (m : List (String × Value)) :
    Table × Bool :=
  let s1 := match m.lookup "gte" with
    | some v => (filterRowsBy t i (fun c => valueLe v c), true)
    | none => (t, false)
  let s2 := match m.lookup "lte" with
    | some v => (filterRowsBy s1.1 i (fun c => valueLe c v), true)
    | none => s1
  let s3 := match m.lookup "gt" with
    | some v => (filterRowsBy s2.1 i (fun c => valueLt v c), true)
    | none => s2
  let s4 := match m.lookup "lt" with
    | some v => (filterRowsBy s3.1 i (fun c => valueLt c v), true)
    | none => s3
  let s5 := match m.lookup "eq" with
    | some v => (filterRowsBy s4.1 i (fun c => valueEqB c v), true)
    | none => s4
  match m.lookup "contains" with
  | some v =>
      (filterRowsBy s5.1 i (fun c => strContainsCI (valueToStr c) (valueToStr v)),
       true)
  | none => s5

/-- One filter entry of the file driver: silently skipped when the column
is not present; a plain literal filters by equality. -/
def applyCsvEntry (t : Table) (col : String) (fv : FilterVal) : Table × Bool :=
  if t.header.contains col then
    let i := colIndex t col
    match fv with
    | .lit v => (filterRowsBy t i (fun c => valueEqB c v), true)
    | .ops m => applyOpsFilters t i m
  else (t, false)

/-- The file driver's filter loop, entry by entry (AND-combination by
sequential re-filtering). -/
def applyFilters (t : Table) : List (String × FilterVal) → Table × Bool
  | [] => (t, false)
  | (col, fv) :: rest =>
      let (t1, ch1) := applyCsvEntry t col fv
      let (t2, ch2) := applyFilters t1 rest
      (t2, ch1 || ch2)

/-- Stable insertion keeping existing elements first among equals. -/
def insertStable (le : α → α → Bool) (a : α) : List α → List α
  | [] => [a]
  | b :: bs => if le b a then b :: insertStable le a bs else a :: b :: bs

/-- Stable sort by a boolean comparator. -/
def stableSortBy (le : α → α → Bool) (xs : List α) : List α :=
  xs.foldl (fun acc a => insertStable le a acc) []

/-- Row comparison by the key cell at position `i`. -/
def rowLe (i : Nat) (r1 r2 : List Value) : Bool :=
  valueLe (cellAt r1 i) (cellAt r2 i)

/-- The row permutation computed by `pandas.core.sorting.nargsort` for one
sort key: missing keys are split off and appended last regardless of
direction (`na_position="last"`); for `ascending=False` the non-missing
block is reversed, argsorted ascending, and the resulting indexer
reversed again — so descending keeps tied keys in their original
relative order (it is not the reverse of the ascending order). The
argsort itself is modeled as stable. -/
def nargsortRows (rows : List (List Value)) (i : Nat) (asc : Bool) :
    List (List Value) :=
  let nonNull := rows.filter (fun r => !(cellAt r i == Value.null))
  let nulls := rows.filter (fun r => cellAt r i == Value.null)
  let sorted :=
    if asc then stableSortBy (rowLe i) nonNull
    else (stableSortBy (rowLe i) nonNull.reverse).reverse
  sorted ++ nulls

/-- `df.sort_values(order_by, ascending=...)` as used by the file and HTTP
drivers: strip a leading `-` for descending, no-op when the column is
absent (or the spec is the empty string, which is falsy in
`if order_by:`); otherwise permute the rows by nargsort on the key
column. -/
def sortTable (t : Table) (ob : String) : Table × Bool :=
  if ob.data.isEmpty then (t, false)
  else
    let sortCol := (parseOrderSpec ob).1
    let asc := (parseOrderSpec ob).2
    if t.header.contains sortCol then
      ({ t with rows := nargsortRows t.rows (colIndex t sortCol) asc }, true)
    else (t, false)

/-- `df.head(n)`: first `n` rows; a negative `n` drops the last `|n|`. -/
def pdHead (n : Int) (rows : List (List Value)) : List (List Value) :=
  if 0 ≤ n then rows.take n.toNat else rows.take (rows.length - n.natAbs)

/-- The `if limit: df = df.head(limit)` step shared by the file and HTTP
drivers. Python truthiness: 0 behaves like `None` (no cap). -/
def applyLimitTable (limit : Option Int) (t : Table) : Table :=
  match limit with
  | none => t
  | some n => if n ≠ 0 then { t with rows := pdHead n t.rows } else t

/-- Limit step on a (table, rebound) pair, recording the `df` rebinding
when it fires. -/
def applyLimitStep (limit : Option Int) (p : Table × Bool) : Table × Bool :=
  match limit with
  | none => p
  | some n => if n ≠ 0 then ({ p.1 with rows := pdHead n p.1.rows }, true) else p

/-- `df[columns]` of the file driver: pandas raises a `KeyError` naming the
missing labels when any requested column is absent; otherwise the result
has exactly the requested columns in the requested order. -/
def selectColumns (t : Table) (cols : List String) : Except String Table :=
  let missing := cols.filter (fun c => !t.header.contains c)
  if missing.isEmpty then
    .ok { header := cols,
          rows := t.rows.map (fun r => cols.map (fun c => cellAt r (colIndex t c))) }
  else
    .error s!"KeyError: {missing} not in index"

/-- The body of `CSVSource.fetch` after `_load()` (lines 62–96) up to the
limit step: column selection, filters and ordering applied to the loaded
table. The boolean records whether `df` was ever rebound to a new object
(false means the frame is still the cache itself). Empty
`columns`/`filters` lists behave like `None` (Python truthiness). -/
def csvSelectFilterSort (t0 : Table) (columns : List String)
    (filters : List (String × FilterVal)) (orderBy : Option String) :
    Except String (Table × Bool) :=
  let afterSel : Except String (Table × Bool) :=
    if columns.isEmpty then .ok (t0, false)
    else
      match selectColumns t0 columns with
      | .error e => .error e
      | .ok t1 => .ok (t1, true)
  match afterSel with
  | .error e => .error e
  | .ok (t1, ch1) =>
      let (t2, ch2) := applyFilters t1 filters
      let (t3, ch3) :=
        match orderBy with
        | none => (t2, false)
        | some ob => sortTable t2 ob
      .ok (t3, ch1 || ch2 || ch3)

/-- The full `CSVSource.fetch` body: selection, filters, ordering, then
the truthiness-guarded limit. -/
def csvTransform (t0 : Table) (columns : List String)
    (filters : List (String × FilterVal)) (limit : Option Int)
    (orderBy : Option String) : Except String (Table × Bool) :=
  (csvSelectFilterSort t0 columns filters orderBy).map (applyLimitStep limit)

/-- `CSVSource.fetch` as a pure function of the loaded table. -/
def csvFetch (t0 : Table) (columns : List String)
    (filters : List (String × FilterVal)) (limit : Option Int)
    (orderBy : Option String) : Except String Table :=
  (csvTransform t0 columns filters limit orderBy).map Prod.fst

/-! ### File loading and date parsing (`CSVSource._load`) -/

/-- A string of the ISO form dddd-dd-dd, the date shape the embedding
treats as parseable by `pd.to_datetime`. -/
def isDateString (s : String) : Bool :=
  match s.data with
  | [y1, y2, y3, y4, h1, m1, m2, h2, d1, d2] =>
      y1.isDigit && y2.isDigit && y3.isDigit && y4.isDigit &&
      h1 = '-' && m1.isDigit && m2.isDigit && h2 = '-' &&
      d1.isDigit && d2.isDigit
  | _ => false

/-- Do all cells at position `i` hold parseable date strings? (The whole
column must parse for `to_datetime` to succeed.) -/
def colAllDateStrings (t : Table) (i : Nat) : Bool :=
  t.rows.all (fun r =>
    match cellAt r i with
    | .str s => isDateString s
    | _ => false)

/-- Convert a string cell into a parsed date. -/
def forceDate : Value → Value
  | .str s => .date s
  | v => v

/-- Convert the cells of one row whose position satisfies `want`. -/
def convRow (want : Nat → Bool) : Nat → List Value → List Value
  | _, [] => []
  | i, v :: vs => (if want i then forceDate v else v) :: convRow want (i + 1) vs

/-- Convert every column position satisfying `want` to dates. -/
def convertCols (t : Table) (want : Nat → Bool) : Table :=
  { t with rows := t.rows.map (convRow want 0) }

/-- `pd.read_csv(..., parse_dates=self.parse_dates if self.parse_dates
else True)`: with an explicit non-empty list, the listed columns are
parsed where they fully parse (pandas leaves an unparseable column
unaltered); with the config entry absent (or an empty, falsy list) the
argument becomes `True`, which directs pandas to parse only the index —
and no `index_col` is configured, so no data column is touched. -/
def readCsv (raw : Table) (parseDates : Option (List String)) : Table :=
  match parseDates with
  | some l =>
      if l.isEmpty then raw
      else convertCols raw
        (fun i => l.contains (raw.header.getD i "") && colAllDateStrings raw i)
  | none => raw

/-- The column-name heuristic of `pd.read_json`'s default
`keep_default_dates`: names ending in _at or _time, equal to modified,
date or datetime, or starting with timestamp. -/
def isDefaultDateName (name : String) : Bool :=
  let l := name.data.map Char.toLower
  endsWithChars "_at".data l || endsWithChars "_time".data l ||
    l == "modified".data || l == "date".data || l == "datetime".data ||
    startsWithChars "timestamp".data l

/-- `pd.read_json(path, encoding=...)` with its default
`convert_dates=True`: columns whose names match the default-date
heuristic are converted when they fully parse. The driver's
`parse_dates` config is not passed to `read_json` at all. -/
def readJson (raw : Table) : Table :=
  convertCols raw
    (fun i => isDefaultDateName (raw.header.getD i "") && colAllDateStrings raw i)

/-- `CSVSource._load` dispatch on the (lowercased) file suffix. -/
def csvLoadFile (suffix : String) (raw : Table)
    (parseDates : Option (List String)) : Except String Table :=
  if suffix = ".json" then .ok (readJson raw)
  else if suffix = ".csv" || suffix = ".tsv" then .ok (readCsv raw parseDates)
  else .error s!"Unsupported file type: {suffix}"

/-- `CSVSource.get_schema`: loads (the full file; the cache holds the whole
dataset) and reports `row_count = len(df)` — the row count of the entire
loaded table. -/
def csvGetSchemaRowCount (suffix : String) (raw : Table)
    (parseDates : Option (List String)) : Except String Nat :=
  (csvLoadFile suffix raw parseDates).map (fun t => t.rows.length)

/-! ### HTTP driver (`api_source.py`) -/

/-- The post-materialization `to_datetime` loop of `APISource.fetch`
(lines 94–100): each object-typed column is converted when every cell is
a string that parses as a date; on failure the column is left as-is. -/
def parseDatetimeColumns (t : Table) : Table :=
  convertCols t (fun i => colAllDateStrings t i)

/-- Column selection of `APISource.fetch` (line 104):
`df[[c for c in columns if c in df.columns]]` — requested columns not
present are silently dropped. -/
def apiSelect (t : Table) (cols : List String) : Table :=
  let keep := cols.filter (fun c => t.header.contains c)
  { header := keep,
    rows := t.rows.map (fun r => keep.map (fun c => cellAt r (colIndex t c))) }

/-- `APISource.fetch` as a pure function of the extracted response records
(`data`): filters are merged into the outgoing request parameters — they
shape the remote response, and are not applied client-side — then date
detection, column selection, ordering and the truthiness-guarded limit
run client-side. -/
def apiFetch (data : Table) (columns : List String) (limit : Option Int)
    (orderBy : Option String) : Table :=
  let t1 := parseDatetimeColumns data
  let t2 := if columns.isEmpty then t1 else apiSelect t1 columns
  let t3 :=
    match orderBy with
    | none => t2
    | some ob => (sortTable t2 ob).1
  applyLimitTable limit t3

/-- `APISource.get_schema`: fetches with `limit=10` and reports
`row_count = len(df)` of that sample. -/
def apiGetSchemaRowCount (data : Table) : Nat :=
  (apiFetch data [] (some 10) none).rows.length

/-! ### Object identity and the load-once cache (`CSVSource._load` / `fetch`)

`fetch` starts from `df = await self._load()` and only rebinds `df` when a
transformation step actually fires, so with no arguments it returns the
very object held in `_df_cache`. To reason about aliasing we track tables
in a small heap of Python objects addressed by index. -/

/-- The Python object heap: tables addressed by allocation index. -/
structure PyHeap where
  objs : List Table
  deriving DecidableEq

/-- Read the object at an address (out-of-range reads an empty table). -/
def heapGet (h : PyHeap) (i : Nat) : Table :=
  h.objs.getD i { header := [], rows := [] }

/-- Allocate a fresh object, returning its address. -/
def heapAlloc (h : PyHeap) (t : Table) : PyHeap × Nat :=
  ({ objs := h.objs ++ [t] }, h.objs.length)

/-- In-place mutation of the object at an address (what a caller does to
the frame a fetch returned, e.g. adding a column or dropping rows). -/
def heapSet (h : PyHeap) (i : Nat) (t : Table) : PyHeap :=
  { objs := h.objs.set i t }

/-- The driver state: `_df_cache`, an optional reference to the cached
loaded table. -/
structure CSVState where
  cache : Option Nat
  deriving DecidableEq

/-- `CSVSource._load` with caching: on first call the parsed file is
allocated and remembered; later calls return the cached reference. -/
def csvLoadRef (fileTable : Table) (st : CSVState) (h : PyHeap) :
    Nat × CSVState × PyHeap :=
  match st.cache with
  | some i => (i, st, h)
  | none =>
      let (h2, i) := heapAlloc h fileTable
      (i, { cache := some i }, h2)

/-- `CSVSource.fetch` at the object level: load (through the cache), run
the transformation pipeline, and return a reference to a fresh object
only when the pipeline rebound `df`; otherwise the reference to the
cached object itself is returned to the caller. -/
def csvFetchRef (fileTable : Table) (st : CSVState) (h : PyHeap)
    (columns : List String) (filters : List (String × FilterVal))
    (limit : Option Int) (orderBy : Option String) :
    Except String (Nat × CSVState × PyHeap) :=
  let (r, st2, h2) := csvLoadRef fileTable st h
  match csvTransform (heapGet h2 r) columns filters limit orderBy with
  | .error e => .error e
  | .ok (t, rebound) =>
      if rebound then
        let (h3, rNew) := heapAlloc h2 t
        .ok (rNew, st2, h3)
      else
        .ok (r, st2, h2)

/-! ## Registry (`registry.py`) and the `validate` dispatch -/

/-- `DataSourceType` of `models.py`. -/
inductive DataSourceType where
  | csv | json | restApi | sql
  deriving DecidableEq

/-- The three driver classes. -/
inductive SourceClass where
  | csvSourceCls | apiSourceCls | sqlSourceCls
  deriving DecidableEq

/-- `SourceRegistry.SOURCE_CLASSES`: every enum member resolves to a
class (CSV and JSON both map to the file driver). -/
def sourceClassFor : DataSourceType → SourceClass
  | .csv => .csvSourceCls
  | .json => .csvSourceCls
  | .restApi => .apiSourceCls
  | .sql => .sqlSourceCls

/-- `config.type.value`, used in the confirmation message. -/
def typeValueStr : DataSourceType → String
  | .csv => "csv"
  | .json => "json"
  | .restApi => "rest_api"
  | .sql => "sql"

/-- Python attribute lookup for the method named validate: `APISource`
defines one (api_source.py lines 38–42); `CSVSource`, `SQLSource` and the
`DataSource` base class (base.py, which defines only `fetch`,
`get_schema`, `fetch_as_result` and `_detect_column_info`) do not. -/
def classDefinesValidate : SourceClass → Bool
  | .apiSourceCls => true
  | _ => false

/-- A backend-specific config map. -/
structure SourceConfigMap where
  entries : List (String × Value)
  deriving DecidableEq

/-- `config.get(key)` / `config[key]`. -/
def cfgGet (m : SourceConfigMap) (k : String) : Option Value :=
  m.entries.lookup k

/-- The required-key reads each constructor performs
(`config["path"]`, `config["url"]`, `config["connection_string"]`);
a missing key raises `KeyError` at construction. -/
def ctorOk : SourceClass → SourceConfigMap → Except String Unit
  | .csvSourceCls, m =>
      match cfgGet m "path" with
      | some _ => .ok ()
      | none => .error "KeyError: path"
  | .apiSourceCls, m =>
      match cfgGet m "url" with
      | some _ => .ok ()
      | none => .error "KeyError: url"
  | .sqlSourceCls, m =>
      match cfgGet m "connection_string" with
      | some _ => .ok ()
      | none => .error "KeyError: connection_string"

/-- `APISource.validate`: raises `SourceValidationError` when the
configured url is falsy (absent or empty). -/
def runApiValidate (m : SourceConfigMap) : Except String Unit :=
  match cfgGet m "url" with
  | some (.str u) =>
      if u.isEmpty then .error "SourceValidationError: API source requires url"
      else .ok ()
  | _ => .error "SourceValidationError: API source requires url"

/-- The `source.validate()` call site in `SourceRegistry.register`: Python
method dispatch raises `AttributeError` when neither the class nor any
base defines the method. -/
def callValidate (cls : SourceClass) (m : SourceConfigMap) :
    Except String Unit :=
  if classDefinesValidate cls then
    match cls with
    | .apiSourceCls => runApiValidate m
    | _ => .ok ()
  else
    .error "AttributeError: object has no attribute named validate"

/-- A registration request (`DataSourceConfig` of `models.py`). -/
structure RegisterConfig where
  name : String
  type : DataSourceType
  config : SourceConfigMap
  deriving DecidableEq

/-- `SourceRegistry.register` (registry.py lines 28–37): resolve the class
(the map covers every enum member), construct the driver, call
`validate()` eagerly, and on success return the confirmation string. -/
def registerSource (cfg : RegisterConfig) : Except String String :=
  let cls := sourceClassFor cfg.type
  match ctorOk cls cfg.config with
  | .error e => .error e
  | .ok _ =>
      match callValidate cls cfg.config with
      | .error e => .error e
      | .ok _ =>
          .ok s!"Data source {cfg.name} registered ({typeValueStr cfg.type})"

/-! ## Helper lemmas -/

theorem condsForOps_fst_eq (i : Nat) (c : String) :
    ∀ {m1 m2 : List (String × Value)},
      m1.map Prod.fst = m2.map Prod.fst →
      (condsForOps i c m1).1 = (condsForOps i c m2).1 := by
  intro m1
  induction m1 with
  | nil =>
      intro m2 h
      have : m2 = [] := by
        cases m2 with
        | nil => rfl
        | cons b bs => simp at h
      subst this; rfl
  | cons a tl ih =>
      intro m2 h
      cases m2 with
      | nil => simp at h
      | cons b bs =>
          simp only [List.map_cons, List.cons.injEq] at h
          obtain ⟨hab, htl⟩ := h
          simp only [condsForOps, hab]
          cases hop : sqlOpFor b.1 <;> simp [ih htl]

theorem buildConds_fst_eq (valid : List String) :
    ∀ (i : Nat) {f1 f2 : List (String × FilterVal)},
      filterShape f1 = filterShape f2 →
      (buildConds valid i f1).map (fun r => r.1) =
        (buildConds valid i f2).map (fun r => r.1) := by
  intro i f1
  induction f1 generalizing i with
  | nil =>
      intro f2 h
      have : f2 = [] := by
        cases f2 with
        | nil => rfl
        | cons b bs => simp [filterShape] at h
      subst this; rfl
  | cons a tl ih =>
      intro f2 h
      cases f2 with
      | nil => simp [filterShape] at h
      | cons b bs =>
          simp only [filterShape, List.map_cons, List.cons.injEq, Prod.mk.injEq] at h
          obtain ⟨⟨hcol, hshape⟩, htl⟩ := h
          have hconds :
              (match a.2 with
               | .lit v => ([s!"{b.1} = :p{i}"], [(s!"p{i}", v)])
               | .ops m => condsForOps i b.1 m).1 =
              (match b.2 with
               | .lit v => ([s!"{b.1} = :p{i}"], [(s!"p{i}", v)])
               | .ops m => condsForOps i b.1 m).1 := by
            cases ha2 : a.2 <;> cases hb2 : b.2 <;>
              simp [ha2, hb2] at hshape ⊢
            exact condsForOps_fst_eq i b.1 hshape
          have hrest := ih (i + 1) (show filterShape tl = filterShape bs from htl)
          simp only [buildConds, hcol]
          cases hv : validateColumn valid b.1 with
          | error e => rfl
          | ok u =>
              cases h1 : buildConds valid (i + 1) tl with
              | error e1 =>
                  cases h2 : buildConds valid (i + 1) bs with
                  | error e2 =>
                      rw [h1, h2] at hrest
                      simp only [Except.map] at hrest ⊢
                      exact hrest
                  | ok r2 =>
                      rw [h1, h2] at hrest
                      simp [Except.map] at hrest
              | ok r1 =>
                  cases h2 : buildConds valid (i + 1) bs with
                  | error e2 =>
                      rw [h1, h2] at hrest
                      simp [Except.map] at hrest
                  | ok r2 =>
                      obtain ⟨cs1, ps1⟩ := r1
                      obtain ⟨cs2, ps2⟩ := r2
                      rw [h1, h2] at hrest
                      simp only [Except.map, Except.ok.injEq] at hrest ⊢
                      rw [hconds, hrest]

theorem buildQueryTable_fst_eq (valid : List String) (tbl : String)
    (columns : List String) {f1 f2 : List (String × FilterVal)}
    (limit : Option Int) (orderBy : Option String)
    (hshape : filterShape f1 = filterShape f2) :
    (buildQueryTable valid tbl columns f1 limit orderBy).map Prod.fst =
      (buildQueryTable valid tbl columns f2 limit orderBy).map Prod.fst := by
  unfold buildQueryTable
  cases validateIdentifier tbl with
  | error e => rfl
  | ok u =>
    cases validateAll valid columns with
    | error e => rfl
    | ok u2 =>
      have hc := buildConds_fst_eq valid 0 hshape
      cases h1 : buildConds valid 0 f1 with
      | error e1 =>
          cases h2 : buildConds valid 0 f2 with
          | error e2 =>
              rw [h1, h2] at hc
              simp only [Except.map] at hc
              injection hc with he
              subst he
              rfl
          | ok r2 =>
              rw [h1, h2] at hc
              simp [Except.map] at hc
      | ok r1 =>
          cases h2 : buildConds valid 0 f2 with
          | error e2 =>
              rw [h1, h2] at hc
              simp [Except.map] at hc
          | ok r2 =>
              obtain ⟨conds1, ps1⟩ := r1
              obtain ⟨conds2, ps2⟩ := r2
              rw [h1, h2] at hc
              simp only [Except.map, Except.ok.injEq] at hc
              rw [hc]
              dsimp only
              cases buildOrderClause valid
                  (withWhere (selectBase columns tbl) conds2) orderBy with
              | error e => rfl
              | ok q2 => simp [Except.map]

/-! ## Claim C1 -/

/-- Claim C1: on a SQL source configured with a table, filter values are
bound as parameters and never string-interpolated: the generated query
text depends only on the shape of the filter expression (column keys and
operator keys), never on the filter values, so a value containing SQL
metacharacters cannot change the SQL that executes — values reach the
backend only through the parameter list. -/
theorem C1_sql_query_text_independent_of_filter_values
    (cfg : SQLConfig) (columns : List String)
    (f1 f2 : List (String × FilterVal)) (limit : Option Int)
    (orderBy : Option String) (hshape : filterShape f1 = filterShape f2) :
    (buildQuery cfg columns f1 limit orderBy).map Prod.fst =
      (buildQuery cfg columns f2 limit orderBy).map Prod.fst := by
  cases hdq : truthyStr cfg.defaultQuery with
  | some q => simp [buildQuery, hdq]
  | none =>
    cases ht : truthyStr cfg.table with
    | none => simp [buildQuery, hdq, ht]
    | some tbl =>
        simp only [buildQuery, hdq, ht]
        exact buildQueryTable_fst_eq cfg.validColumns tbl columns limit orderBy hshape

/-- Witness for C1: a filter value full of SQL metacharacters produces the
very same query text as a harmless value — the payload only ever appears
in the parameter list. -/
theorem C1_witness :
    filterShape [("category", FilterVal.lit (Value.str "1; DROP TABLE x; --"))] =
      filterShape [("category", FilterVal.lit (Value.str "A"))] ∧
    (buildQuery
        { defaultQuery := none, table := some "test_table",
          validColumns := ["date", "value", "category"] }
        [] [("category", FilterVal.lit (Value.str "1; DROP TABLE x; --"))]
        none none).map Prod.fst =
      (buildQuery
        { defaultQuery := none, table := some "test_table",
          validColumns := ["date", "value", "category"] }
        [] [("category", FilterVal.lit (Value.str "A"))]
        none none).map Prod.fst :=
  ⟨rfl,
   C1_sql_query_text_independent_of_filter_values
     { defaultQuery := none, table := some "test_table",
       validColumns := ["date", "value", "category"] }
     [] [("category", FilterVal.lit (Value.str "1; DROP TABLE x; --"))]
     [("category", FilterVal.lit (Value.str "A"))] none none rfl⟩

theorem validateAll_ok_mem (valid : List String) {cs : List String}
    {c : String} {u : Unit} (h : validateAll valid cs = .ok u) (hc : c ∈ cs) :
    validateColumn valid c = .ok () := by
  induction cs with
  | nil => cases hc
  | cons a tl ih =>
      simp only [validateAll] at h
      cases hv : validateColumn valid a with
      | error e => rw [hv] at h; simp at h
      | ok w =>
          rw [hv] at h
          rcases List.mem_cons.mp hc with rfl | hc2
          · cases w; exact hv
          · exact ih h hc2

theorem buildConds_ok_mem (valid : List String) :
    ∀ (i : Nat) {fs : List (String × FilterVal)}
      {r : List String × List (String × Value)},
      buildConds valid i fs = .ok r →
      ∀ p ∈ fs, validateColumn valid p.1 = .ok () := by
  intro i fs
  induction fs generalizing i with
  | nil => intro r h p hp; cases hp
  | cons a tl ih =>
      intro r h p hp
      simp only [buildConds] at h
      cases hv : validateColumn valid a.1 with
      | error e => rw [hv] at h; simp at h
      | ok w =>
          rw [hv] at h
          cases hb : buildConds valid (i + 1) tl with
          | error e => rw [hb] at h; simp at h
          | ok r2 =>
              rcases List.mem_cons.mp hp with rfl | hp2
              · cases w; exact hv
              · exact ih (i + 1) hb p hp2

theorem buildOrderClause_ok_valid (valid : List String) (q1 : String)
    (ob : String) {q2 : String} (hne : ob.data ≠ [])
    (h : buildOrderClause valid q1 (some ob) = .ok q2) :
    validateColumn valid (parseOrderSpec ob).1 = .ok () := by
  have hie : ob.data.isEmpty = false := by
    cases hd : ob.data with
    | nil => exact absurd hd hne
    | cons a l => rfl
  simp only [buildOrderClause, hie, Bool.false_eq_true, if_false] at h
  cases hv : validateColumn valid (parseOrderSpec ob).1 with
  | error e => rw [hv] at h; simp at h
  | ok w => cases w; rfl

theorem truthyStr_none : truthyStr none = none := rfl

theorem validateColumn_error_of_bad (valid : List String) (c : String)
    (hbad : safeIdentifier c = false ∨ (valid ≠ [] ∧ c ∉ valid)) :
    ∃ e, validateColumn valid c = .error e := by
  cases hs : safeIdentifier c with
  | false =>
      exact ⟨s!"Invalid SQL identifier: {c}",
        by simp [validateColumn, validateIdentifier, hs]⟩
  | true =>
      rcases hbad with hs2 | ⟨hne, hni⟩
      · rw [hs] at hs2; cases hs2
      · have h1 : valid.isEmpty = false := by
          cases valid with
          | nil => exact absurd rfl hne
          | cons a t => rfl
        exact ⟨s!"Column {c} not found in table. Valid: {valid}",
          by simp [validateColumn, validateIdentifier, hs, h1, hni]⟩

/-! ## Claim C2 -/

/-- Claim C2: on a SQL source configured with a table, any column supplied
via `columns`, `filters` or a truthy (non-empty) `order_by` that fails
the strict identifier pattern, or is missing from the (non-empty)
introspected column set of the table, makes the query construction fail
with a validation error — and the backend executor is never invoked,
whatever it is. (An empty-string `order_by` is falsy in `if order_by:`
and supplies no column at all.) -/
theorem C2_sql_invalid_column_fails_before_execution
    (cfg : SQLConfig) (columns : List String)
    (filters : List (String × FilterVal)) (limit : Option Int)
    (orderBy : Option String) (c : String)
    (hq : cfg.defaultQuery = none)
    (hmem : c ∈ columns ∨ c ∈ filters.map Prod.fst ∨
            ∃ ob, orderBy = some ob ∧ ob.data ≠ [] ∧ (parseOrderSpec ob).1 = c)
    (hbad : safeIdentifier c = false ∨
            (cfg.validColumns ≠ [] ∧ c ∉ cfg.validColumns)) :
    ∃ e, buildQuery cfg columns filters limit orderBy = .error e ∧
         ∀ exec, sqlFetch exec cfg columns filters limit orderBy = .error e := by
  obtain ⟨e0, hvc⟩ := validateColumn_error_of_bad cfg.validColumns c hbad
  cases hres : buildQuery cfg columns filters limit orderBy with
  | error e => exact ⟨e, rfl, fun exec => by simp [sqlFetch, hres]⟩
  | ok r =>
      exfalso
      simp only [buildQuery, hq, truthyStr_none] at hres
      cases ht : truthyStr cfg.table with
      | none => rw [ht] at hres; simp at hres
      | some tbl =>
          rw [ht] at hres
          dsimp only at hres
          simp only [buildQueryTable] at hres
          cases hvi : validateIdentifier tbl with
          | error e => rw [hvi] at hres; simp at hres
          | ok u =>
              rw [hvi] at hres
              dsimp only at hres
              cases hva : validateAll cfg.validColumns columns with
              | error e => rw [hva] at hres; simp at hres
              | ok u2 =>
                  rw [hva] at hres
                  dsimp only at hres
                  cases hbc : buildConds cfg.validColumns 0 filters with
                  | error e => rw [hbc] at hres; simp at hres
                  | ok r2 =>
                      obtain ⟨conds, ps⟩ := r2
                      rw [hbc] at hres
                      dsimp only at hres
                      rcases hmem with hc | hc | ⟨ob, hob, hobne, hobc⟩
                      · have := validateAll_ok_mem cfg.validColumns hva hc
                        rw [hvc] at this; cases this
                      · obtain ⟨p, hp, hpc⟩ := List.mem_map.mp hc
                        have := buildConds_ok_mem cfg.validColumns 0 hbc p hp
                        rw [hpc, hvc] at this; cases this
                      · subst hob
                        cases hbo : buildOrderClause cfg.validColumns
                            (withWhere (selectBase columns tbl) conds) (some ob) with
                        | error e => rw [hbo] at hres; simp at hres
                        | ok q2 =>
                            have := buildOrderClause_ok_valid cfg.validColumns
                              (withWhere (selectBase columns tbl) conds) ob hobne hbo
                            rw [hobc, hvc] at this; cases this

/-- Witness for C2: requesting the nonexistent column nope on a table
whose introspected columns are date, value, category fails query
construction, and no executor ever runs. -/
theorem C2_witness :
    ∃ e,
      buildQuery
        { defaultQuery := none, table := some "test_table",
          validColumns := ["date", "value", "category"] }
        ["nope"] [] none none = .error e ∧
      ∀ exec, sqlFetch exec
        { defaultQuery := none, table := some "test_table",
          validColumns := ["date", "value", "category"] }
        ["nope"] [] none none = .error e :=
  C2_sql_invalid_column_fails_before_execution
    { defaultQuery := none, table := some "test_table",
      validColumns := ["date", "value", "category"] }
    ["nope"] [] none none "nope" rfl
    (Or.inl (by simp))
    (Or.inr (by refine ⟨by simp, ?_⟩; decide))

theorem condsForOps_all_none (i : Nat) (c : String)
    {m : List (String × Value)} (h : ∀ p ∈ m, sqlOpFor p.1 = none) :
    condsForOps i c m = ([], []) := by
  induction m with
  | nil => rfl
  | cons a tl ih =>
      have ha := h a (List.mem_cons_self a tl)
      have htl := ih (fun p hp => h p (List.mem_cons_of_mem a hp))
      simp [condsForOps, ha, htl]

/-! ## Claim C10 -/

/-- Claim C10: on a SQL source configured with a table, an operator-map
filter entry whose operator keys are all outside gte/lte/gt/lt/eq (for
example contains) is silently dropped after its column name validates:
no condition and no parameter is generated for it, no error is raised,
and the built query is identical to the one with that entry absent. -/
theorem C10_sql_unknown_filter_op_silently_dropped
    (cfg : SQLConfig) (columns : List String) (c : String)
    (m : List (String × Value)) (limit : Option Int) (orderBy : Option String)
    (hops : ∀ p ∈ m, sqlOpFor p.1 = none)
    (hc : validateColumn cfg.validColumns c = .ok ()) :
    buildQuery cfg columns [(c, FilterVal.ops m)] limit orderBy =
      buildQuery cfg columns [] limit orderBy := by
  cases hdq : truthyStr cfg.defaultQuery with
  | some q => simp [buildQuery, hdq]
  | none =>
    cases ht : truthyStr cfg.table with
    | none => simp [buildQuery, hdq, ht]
    | some tbl =>
        simp only [buildQuery, hdq, ht]
        have hbc : buildConds cfg.validColumns 0 [(c, FilterVal.ops m)] =
            .ok ([], []) := by
          simp [buildConds, hc, condsForOps_all_none 0 c hops, validateAll]
        have hbc2 : buildConds cfg.validColumns 0
            ([] : List (String × FilterVal)) = .ok ([], []) := rfl
        unfold buildQueryTable
        cases validateIdentifier tbl with
        | error e => rfl
        | ok u =>
            cases validateAll cfg.validColumns columns with
            | error e => rfl
            | ok u2 =>
                rw [hbc, hbc2]

/-- Witness for C10: a contains filter entry on a valid column produces
exactly the query of the filterless call — and that query has no WHERE
clause and no parameters. -/
theorem C10_witness :
    (∀ p ∈ [("contains", Value.str "abc")], sqlOpFor p.1 = none) ∧
    validateColumn ["date", "value", "category"] "category" = .ok () ∧
    buildQuery
      { defaultQuery := none, table := some "test_table",
        validColumns := ["date", "value", "category"] }
      [] [("category", FilterVal.ops [("contains", Value.str "abc")])]
      none none =
      buildQuery
        { defaultQuery := none, table := some "test_table",
          validColumns := ["date", "value", "category"] }
        [] [] none none ∧
    buildQuery
      { defaultQuery := none, table := some "test_table",
        validColumns := ["date", "value", "category"] }
      [] [] none none = .ok ("SELECT * FROM test_table", []) :=
  ⟨by decide, rfl,
   C10_sql_unknown_filter_op_silently_dropped
     { defaultQuery := none, table := some "test_table",
       validColumns := ["date", "value", "category"] }
     [] "category" [("contains", Value.str "abc")] none none
     (by decide) rfl,
   rfl⟩

/-! ## Claim C9 -/

theorem insertStable_perm {α : Type} (le : α → α → Bool) (a : α) (l : List α) :
    (insertStable le a l).Perm (a :: l) := by
  induction l with
  | nil => exact List.Perm.refl _
  | cons b bs ih =>
      simp only [insertStable]
      split
      · exact (ih.cons b).trans (List.Perm.swap a b bs)
      · exact List.Perm.refl _

theorem insertStable_mem {α : Type} (le : α → α → Bool) (a x : α) (l : List α) :
    x ∈ insertStable le a l ↔ x = a ∨ x ∈ l := by
  simpa using (insertStable_perm le a l).mem_iff

theorem stableSortBy_go_perm {α : Type} (le : α → α → Bool) :
    ∀ (l acc : List α),
      (List.foldl (fun acc a => insertStable le a acc) acc l).Perm (l ++ acc) := by
  intro l
  induction l with
  | nil => intro acc; simp
  | cons a tl ih =>
      intro acc
      simp only [List.foldl_cons]
      refine (ih (insertStable le a acc)).trans ?_
      refine (List.Perm.append_left tl (insertStable_perm le a acc)).trans ?_
      exact List.perm_middle

theorem stableSortBy_perm {α : Type} (le : α → α → Bool) (l : List α) :
    (stableSortBy le l).Perm l := by
  simpa [stableSortBy] using stableSortBy_go_perm le l []

theorem insertStable_sorted {α : Type} (le : α → α → Bool)
    (htrans : ∀ x y z, le x y = true → le y z = true → le x z = true)
    (a : α) (l : List α)
    (hs : l.Pairwise (fun x y => le x y = true))
    (htot : ∀ b ∈ l, le a b = true ∨ le b a = true) :
    (insertStable le a l).Pairwise (fun x y => le x y = true) := by
  induction l with
  | nil => simp [insertStable]
  | cons b bs ih =>
      rcases List.pairwise_cons.mp hs with ⟨hb, hbs⟩
      simp only [insertStable]
      split
      next hba =>
        refine List.pairwise_cons.mpr
          ⟨?_, ih hbs (fun x hx => htot x (List.mem_cons_of_mem b hx))⟩
        intro x hx
        rcases (insertStable_mem le a x bs).mp hx with rfl | hxbs
        · exact hba
        · exact hb x hxbs
      next hba =>
        have hab : le a b = true := by
          rcases htot b (List.mem_cons_self b bs) with h | h
          · exact h
          · exact absurd h hba
        refine List.pairwise_cons.mpr ⟨?_, hs⟩
        intro x hx
        rcases List.mem_cons.mp hx with rfl | hxbs
        · exact hab
        · exact htrans a b x hab (hb x hxbs)

theorem stableSortBy_go_sorted {α : Type} (le : α → α → Bool)
    (htrans : ∀ x y z, le x y = true → le y z = true → le x z = true) :
    ∀ (l acc : List α),
      acc.Pairwise (fun x y => le x y = true) →
      (∀ x ∈ l ++ acc, ∀ y ∈ l ++ acc, le x y = true ∨ le y x = true) →
      (List.foldl (fun acc a => insertStable le a acc) acc l).Pairwise
        (fun x y => le x y = true) := by
  intro l
  induction l with
  | nil => intro acc hacc htot; simpa using hacc
  | cons a tl ih =>
      intro acc hacc htot
      simp only [List.foldl_cons]
      apply ih
      · exact insertStable_sorted le htrans a acc hacc
          (fun b hb => htot a (by simp) b (by simp [hb]))
      · intro x hx y hy
        have hsub : ∀ z, z ∈ tl ++ insertStable le a acc → z ∈ (a :: tl) ++ acc := by
          intro z hz
          rcases List.mem_append.mp hz with h | h
          · exact List.mem_append.mpr (Or.inl (List.mem_cons_of_mem a h))
          · rcases (insertStable_mem le a z acc).mp h with rfl | h2
            · simp
            · exact List.mem_append.mpr (Or.inr h2)
        exact htot x (hsub x hx) y (hsub y hy)

theorem stableSortBy_sorted {α : Type} (le : α → α → Bool)
    (htrans : ∀ x y z, le x y = true → le y z = true → le x z = true)
    (l : List α)
    (htot : ∀ x ∈ l, ∀ y ∈ l, le x y = true ∨ le y x = true) :
    (stableSortBy le l).Pairwise (fun x y => le x y = true) := by
  refine stableSortBy_go_sorted le htrans l [] (by simp) ?_
  intro x hx y hy
  simp only [List.append_nil] at hx hy
  exact htot x hx y hy

theorem charsLt_irrefl : ∀ a : List Char, charsLt a a = false := by
  intro a
  induction a with
  | nil => rfl
  | cons x xs ih => simp [charsLt, ih]

theorem charsLt_trans : ∀ {a b c : List Char},
    charsLt a b = true → charsLt b c = true → charsLt a c = true := by
  intro a
  induction a with
  | nil =>
      intro b c hab hbc
      cases b with
      | nil => simp [charsLt] at hab
      | cons y ys =>
          cases c with
          | nil => simp [charsLt] at hbc
          | cons z zs => simp [charsLt]
  | cons x xs ih =>
      intro b c hab hbc
      cases b with
      | nil => simp [charsLt] at hab
      | cons y ys =>
          cases c with
          | nil => simp [charsLt] at hbc
          | cons z zs =>
              simp only [charsLt, Bool.or_eq_true, Bool.and_eq_true,
                decide_eq_true_eq] at hab hbc ⊢
              rcases hab with h1 | ⟨he1, h1x⟩ <;> rcases hbc with h2 | ⟨he2, h2x⟩
              · exact Or.inl (lt_trans h1 h2)
              · exact Or.inl (by rw [← he2]; exact h1)
              · exact Or.inl (by rw [he1]; exact h2)
              · exact Or.inr ⟨he1.trans he2, ih h1x h2x⟩

theorem charsLt_asymm : ∀ {a b : List Char},
    charsLt a b = true → charsLt b a = true → False := by
  intro a
  induction a with
  | nil =>
      intro b hab hba
      cases b with
      | nil => simp [charsLt] at hab
      | cons y ys => simp [charsLt] at hba
  | cons x xs ih =>
      intro b hab hba
      cases b with
      | nil => simp [charsLt] at hab
      | cons y ys =>
          simp only [charsLt, Bool.or_eq_true, Bool.and_eq_true,
            decide_eq_true_eq] at hab hba
          rcases hab with h1 | ⟨he1, h1x⟩ <;> rcases hba with h2 | ⟨he2, h2x⟩
          · exact lt_asymm h1 h2
          · rw [he2] at h1; exact lt_irrefl x h1
          · rw [he1] at h2; exact lt_irrefl y h2
          · exact ih h1x h2x

theorem valueLe_trans : ∀ {x y z : Value},
    valueLe x y = true → valueLe y z = true → valueLe x z = true := by
  intro x y z hxy hyz
  cases x <;> cases y <;> cases z <;>
    simp only [valueLe, Bool.or_eq_true, decide_eq_true_eq,
      beq_iff_eq] at hxy hyz ⊢
  all_goals first
    | exact Bool.noConfusion hxy
    | exact Bool.noConfusion hyz
    | skip
  case int.int.int => omega
  case str.str.str =>
      rcases hxy with h1 | h1 <;> rcases hyz with h2 | h2
      · exact Or.inl (charsLt_trans h1 h2)
      · subst h2; exact Or.inl h1
      · subst h1; exact Or.inl h2
      · subst h1; exact Or.inr h2
  case date.date.date =>
      rcases hxy with h1 | h1 <;> rcases hyz with h2 | h2
      · exact Or.inl (charsLt_trans h1 h2)
      · subst h2; exact Or.inl h1
      · subst h1; exact Or.inl h2
      · subst h1; exact Or.inr h2

theorem valueLe_of_valueLt : ∀ {x y : Value},
    valueLt x y = true → valueLe x y = true := by
  intro x y h
  cases x <;> cases y <;>
    simp only [valueLt, valueLe, Bool.or_eq_true, decide_eq_true_eq,
      beq_iff_eq] at h ⊢
  all_goals first
    | exact Bool.noConfusion h
    | skip
  case int.int => omega
  case str.str => exact Or.inl h
  case date.date => exact Or.inl h

theorem valueLe_valueLt_absurd : ∀ {x y : Value},
    valueLe x y = true → valueLt y x = true → False := by
  intro x y hle hlt
  cases x <;> cases y <;>
    simp only [valueLe, valueLt, Bool.or_eq_true, decide_eq_true_eq,
      beq_iff_eq] at hle hlt
  all_goals first
    | exact Bool.noConfusion hle
    | exact Bool.noConfusion hlt
    | skip
  case int.int => omega
  case str.str =>
      rcases hle with h | h
      · exact charsLt_asymm h hlt
      · subst h; rw [charsLt_irrefl] at hlt; cases hlt
  case date.date =>
      rcases hle with h | h
      · exact charsLt_asymm h hlt
      · subst h; rw [charsLt_irrefl] at hlt; cases hlt

theorem valueLe_refl_of_ne_null : ∀ {x : Value},
    x ≠ Value.null → valueLe x x = true := by
  intro x hx
  cases x with
  | int n => simp [valueLe]
  | str s => simp [valueLe]
  | date iso => simp [valueLe]
  | null => exact absurd rfl hx

/-- Counterexample to C9 as stated: with tied key values the descending
order is not the reverse of the ascending one — nargsort keeps ties in
their original relative order in both directions, so rows with v = 1
carrying payloads a then b come back a-then-b under both `order_by="v"`
and `order_by="-v"`. -/
theorem C9_counterexample_ties_not_reversed :
    csvFetch { header := ["v", "w"],
               rows := [[Value.int 1, Value.str "a"], [Value.int 1, Value.str "b"]] }
        [] [] none (some "v") =
      .ok { header := ["v", "w"],
            rows := [[Value.int 1, Value.str "a"], [Value.int 1, Value.str "b"]] } ∧
    csvFetch { header := ["v", "w"],
               rows := [[Value.int 1, Value.str "a"], [Value.int 1, Value.str "b"]] }
        [] [] none (some "-v") =
      .ok { header := ["v", "w"],
            rows := [[Value.int 1, Value.str "a"], [Value.int 1, Value.str "b"]] } ∧
    csvFetch { header := ["v", "w"],
               rows := [[Value.int 1, Value.str "a"], [Value.int 1, Value.str "b"]] }
        [] [] none (some "-v") ≠
      Except.map (fun tb => { tb with rows := tb.rows.reverse })
        (csvFetch { header := ["v", "w"],
                    rows := [[Value.int 1, Value.str "a"], [Value.int 1, Value.str "b"]] }
          [] [] none (some "v")) :=
  ⟨by decide, by decide, by decide⟩

/-- Claim C9 (amended): on a file-source fetch whose sort column v holds
pairwise-distinct, non-missing (and mutually comparable) values,
ordering by the dash-prefixed spec returns exactly the reverse of the
order produced by the plain spec — in particular v-values 3, 1, 2 sort
to 1, 2, 3 ascending and 3, 2, 1 descending. With tied or missing
values the two orders are not exact reverses: nargsort keeps ties in
their original relative order in both directions and places missing
keys last in both directions. -/
theorem C9_order_by_desc_reverse_amended
    (t : Table) (ob v : String)
    (hspec : parseOrderSpec ob = (v, false))
    (hself : parseOrderSpec v = (v, true))
    (hne : v.data ≠ [])
    (hcol : t.header.contains v = true)
    (hnn : ∀ r ∈ t.rows, cellAt r (colIndex t v) ≠ Value.null)
    (hcmp : t.rows.Pairwise (fun r1 r2 =>
      valueLt (cellAt r1 (colIndex t v)) (cellAt r2 (colIndex t v)) = true ∨
      valueLt (cellAt r2 (colIndex t v)) (cellAt r1 (colIndex t v)) = true)) :
    csvFetch t [] [] none (some ob) =
      Except.map (fun tb => { tb with rows := tb.rows.reverse })
        (csvFetch t [] [] none (some v)) := by
  have hobne : ob.data.isEmpty = false := by
    cases hd : ob.data with
    | nil =>
        exfalso
        simp [parseOrderSpec, hd] at hspec
    | cons a l => rfl
  have hvne : v.data.isEmpty = false := by
    cases hv2 : v.data with
    | nil => exact absurd hv2 hne
    | cons a l => rfl
  have hR : ∀ {r1 r2 : List Value},
      (valueLt (cellAt r1 (colIndex t v)) (cellAt r2 (colIndex t v)) = true ∨
       valueLt (cellAt r2 (colIndex t v)) (cellAt r1 (colIndex t v)) = true) →
      (valueLt (cellAt r2 (colIndex t v)) (cellAt r1 (colIndex t v)) = true ∨
       valueLt (cellAt r1 (colIndex t v)) (cellAt r2 (colIndex t v)) = true) :=
    fun h => h.symm
  have htrans : ∀ x y z : List Value,
      rowLe (colIndex t v) x y = true → rowLe (colIndex t v) y z = true →
      rowLe (colIndex t v) x z = true :=
    fun x y z h1 h2 => valueLe_trans h1 h2
  have htot : ∀ x ∈ t.rows, ∀ y ∈ t.rows,
      rowLe (colIndex t v) x y = true ∨ rowLe (colIndex t v) y x = true := by
    intro x hx y hy
    by_cases hxy : x = y
    · subst hxy
      exact Or.inl (valueLe_refl_of_ne_null (hnn x hx))
    · rcases hcmp.forall (fun {r1 r2} h => h.symm) hx hy hxy with h | h
      · exact Or.inl (valueLe_of_valueLt h)
      · exact Or.inr (valueLe_of_valueLt h)
  have key : stableSortBy (rowLe (colIndex t v)) t.rows.reverse =
      stableSortBy (rowLe (colIndex t v)) t.rows := by
    have hs1 := stableSortBy_sorted (rowLe (colIndex t v)) htrans t.rows htot
    have htotR : ∀ x ∈ t.rows.reverse, ∀ y ∈ t.rows.reverse,
        rowLe (colIndex t v) x y = true ∨ rowLe (colIndex t v) y x = true := by
      intro x hx y hy
      exact htot x (List.mem_reverse.mp hx) y (List.mem_reverse.mp hy)
    have hs2 := stableSortBy_sorted (rowLe (colIndex t v)) htrans t.rows.reverse htotR
    have hp : (stableSortBy (rowLe (colIndex t v)) t.rows.reverse).Perm
        (stableSortBy (rowLe (colIndex t v)) t.rows) :=
      ((stableSortBy_perm _ _).trans (List.reverse_perm t.rows)).trans
        (stableSortBy_perm _ _).symm
    have hcmp1 := ((stableSortBy_perm (rowLe (colIndex t v)) t.rows).pairwise_iff hR).mpr hcmp
    have hcmpRev := ((List.reverse_perm t.rows).pairwise_iff hR).mpr hcmp
    have hcmp2 :=
      ((stableSortBy_perm (rowLe (colIndex t v)) t.rows.reverse).pairwise_iff hR).mpr hcmpRev
    have hstrict1 : (stableSortBy (rowLe (colIndex t v)) t.rows).Pairwise
        (fun r1 r2 => valueLt (cellAt r1 (colIndex t v)) (cellAt r2 (colIndex t v)) = true) := by
      refine (hs1.and hcmp1).imp ?_
      rintro a b ⟨hle, hab | hba⟩
      · exact hab
      · exact absurd hba (fun hx => valueLe_valueLt_absurd hle hx)
    have hstrict2 : (stableSortBy (rowLe (colIndex t v)) t.rows.reverse).Pairwise
        (fun r1 r2 => valueLt (cellAt r1 (colIndex t v)) (cellAt r2 (colIndex t v)) = true) := by
      refine (hs2.and hcmp2).imp ?_
      rintro a b ⟨hle, hab | hba⟩
      · exact hab
      · exact absurd hba (fun hx => valueLe_valueLt_absurd hle hx)
    haveI : IsAntisymm (List Value)
        (fun r1 r2 => valueLt (cellAt r1 (colIndex t v)) (cellAt r2 (colIndex t v)) = true) :=
      ⟨fun a b h1 h2 =>
        absurd h2 (fun hx => valueLe_valueLt_absurd (valueLe_of_valueLt h1) hx)⟩
    exact List.eq_of_perm_of_sorted hp hstrict2 hstrict1
  have hfilter1 : t.rows.filter
      (fun r => !(cellAt r (colIndex t v) == Value.null)) = t.rows := by
    apply List.filter_eq_self.mpr
    intro r hr
    simp [hnn r hr]
  have hfilter2 : t.rows.filter
      (fun r => cellAt r (colIndex t v) == Value.null) = [] := by
    apply List.filter_eq_nil_iff.mpr
    intro r hr
    simp [hnn r hr]
  simp only [csvFetch, csvTransform, csvSelectFilterSort, applyFilters,
    applyLimitStep, List.isEmpty_nil, if_true, sortTable, hspec, hself,
    hobne, hvne, hcol, Bool.false_eq_true, if_false, nargsortRows,
    hfilter1, hfilter2, key, List.append_nil, Except.map]

/-- Witness for C9 at the concrete rows of the spec example: v-values
3, 1, 2 (pairwise distinct and non-missing) sort to 1, 2, 3 ascending
and 3, 2, 1 with the dash prefix, and the descending result is the
reverse of the ascending one. -/
theorem C9_witness :
    csvFetch { header := ["v"], rows := [[Value.int 3], [Value.int 1], [Value.int 2]] }
        [] [] none (some "v") =
      .ok { header := ["v"], rows := [[Value.int 1], [Value.int 2], [Value.int 3]] } ∧
    csvFetch { header := ["v"], rows := [[Value.int 3], [Value.int 1], [Value.int 2]] }
        [] [] none (some "-v") =
      .ok { header := ["v"], rows := [[Value.int 3], [Value.int 2], [Value.int 1]] } ∧
    csvFetch { header := ["v"], rows := [[Value.int 3], [Value.int 1], [Value.int 2]] }
        [] [] none (some "-v") =
      Except.map (fun tb => { tb with rows := tb.rows.reverse })
        (csvFetch { header := ["v"], rows := [[Value.int 3], [Value.int 1], [Value.int 2]] }
          [] [] none (some "v")) :=
  ⟨by decide, by decide,
   C9_order_by_desc_reverse_amended
     { header := ["v"], rows := [[Value.int 3], [Value.int 1], [Value.int 2]] }
     "-v" "v" (by decide) (by decide) (by decide) (by decide) (by decide)
     (by decide)⟩

/-! ## Claim C8 -/

/-- Counterexample to C8 as stated: `limit=0` on a one-row result does not
yield exactly 0 rows — `if limit:` treats 0 as falsy, so no cap is
applied and the full row survives. -/
theorem C8_counterexample_limit_zero_not_applied :
    csvFetch { header := ["a"], rows := [[Value.int 1]] } [] [] (some 0) none =
      .ok { header := ["a"], rows := [[Value.int 1]] } ∧ (1 : Nat) ≠ 0 :=
  ⟨rfl, by decide⟩

/-- Claim C8 (amended): for every fetch and every natural N ≥ 1, a limit
of N truncates the filtered/ordered result to its first N rows
(exactly N when more were available, a no-op when N is at least the
result size), and on the SQL driver that cap is delegated to the
backend by appending a LIMIT N clause as a coerced integer to the
otherwise-identical query; absent means no cap — but N = 0 is treated
like absent by all three drivers (`if limit:` truthiness), applying no
cap: the file and HTTP drivers skip head(), and the SQL builder appends
no LIMIT clause. -/
theorem C8_limit_amended
    (t0 data : Table) (cfg : SQLConfig)
    (cols scols : List String)
    (fils sfils : List (String × FilterVal))
    (ob sob : Option String) (N : Nat) :
    (1 ≤ N →
      csvFetch t0 cols fils (some (N : Int)) ob =
        Except.map (fun t => { t with rows := t.rows.take N })
          (csvFetch t0 cols fils none ob)) ∧
    (1 ≤ N →
      apiFetch data cols (some (N : Int)) ob =
        { apiFetch data cols none ob with
            rows := (apiFetch data cols none ob).rows.take N }) ∧
    csvFetch t0 cols fils (some 0) ob = csvFetch t0 cols fils none ob ∧
    apiFetch data cols (some 0) ob = apiFetch data cols none ob ∧
    buildQuery cfg scols sfils (some 0) sob =
      buildQuery cfg scols sfils none sob ∧
    (cfg.defaultQuery = none → 1 ≤ N →
      buildQuery cfg scols sfils (some (N : Int)) sob =
        Except.map (fun r => (r.1 ++ " LIMIT " ++ toString (N : Int), r.2))
          (buildQuery cfg scols sfils none sob)) := by
  have hpd : ∀ (rows : List (List Value)), pdHead (N : Int) rows = rows.take N := by
    intro rows
    simp [pdHead]
  refine ⟨?_, ?_, ?_, ?_, ?_, ?_⟩
  · intro hN
    have hNz : (N : Int) ≠ 0 := by
      simp only [ne_eq, Int.natCast_eq_zero]
      omega
    simp only [csvFetch, csvTransform]
    cases hc : csvSelectFilterSort t0 cols fils ob with
    | error e => rfl
    | ok p =>
        obtain ⟨t, ch⟩ := p
        simp [applyLimitStep, hNz, hpd, Except.map]
  · intro hN
    have hNz : (N : Int) ≠ 0 := by
      simp only [ne_eq, Int.natCast_eq_zero]
      omega
    simp [apiFetch, applyLimitTable, hNz, hpd]
  · simp only [csvFetch, csvTransform]
    cases hc : csvSelectFilterSort t0 cols fils ob with
    | error e => rfl
    | ok p => simp [applyLimitStep, Except.map]
  · simp [apiFetch, applyLimitTable]
  · have happ : ∀ q, appendLimit q (some 0) = appendLimit q none := by
      intro q; simp [appendLimit]
    cases hdq : truthyStr cfg.defaultQuery with
    | some q => simp [buildQuery, hdq]
    | none =>
      cases ht : truthyStr cfg.table with
      | none => simp [buildQuery, hdq, ht]
      | some tbl =>
          simp only [buildQuery, hdq, ht]
          unfold buildQueryTable
          cases validateIdentifier tbl with
          | error e => rfl
          | ok u =>
              cases validateAll cfg.validColumns scols with
              | error e => rfl
              | ok u2 =>
                  cases hbc : buildConds cfg.validColumns 0 sfils with
                  | error e => rfl
                  | ok r =>
                      obtain ⟨conds, ps⟩ := r
                      dsimp only
                      cases buildOrderClause cfg.validColumns
                          (withWhere (selectBase scols tbl) conds) sob with
                      | error e => rfl
                      | ok q2 => simp [happ]
  · intro hdq hN
    have hNz : (N : Int) ≠ 0 := by
      simp only [ne_eq, Int.natCast_eq_zero]
      omega
    have happN : ∀ q : String,
        appendLimit q (some (N : Int)) = q ++ " LIMIT " ++ toString (N : Int) := by
      intro q
      show (if (N : Int) ≠ 0 then q ++ (" LIMIT " ++ toString (N : Int) ++ "") else q) =
        q ++ " LIMIT " ++ toString (N : Int)
      rw [if_pos hNz]
      simp [String.append_assoc, String.append_empty]
    simp only [buildQuery, hdq, truthyStr_none]
    cases ht : truthyStr cfg.table with
    | none => rfl
    | some tbl =>
        dsimp only
        unfold buildQueryTable
        cases validateIdentifier tbl with
        | error e => rfl
        | ok u =>
            cases validateAll cfg.validColumns scols with
            | error e => rfl
            | ok u2 =>
                cases hbc : buildConds cfg.validColumns 0 sfils with
                | error e => rfl
                | ok r =>
                    obtain ⟨conds, ps⟩ := r
                    dsimp only
                    cases buildOrderClause cfg.validColumns
                        (withWhere (selectBase scols tbl) conds) sob with
                    | error e => rfl
                    | ok q2 =>
                        have hnone : ∀ q : String, appendLimit q none = q :=
                          fun q => rfl
                        simp [happN, hnone, Except.map]

/-- Witness for C8 at N = 1 over a two-row table: limit 1 takes the first
row of the uncapped result, and limit 0 equals no limit at all. -/
theorem C8_witness :
    (1 ≤ 1) ∧
    csvFetch { header := ["a"], rows := [[Value.int 1], [Value.int 2]] }
        [] [] (some (1 : Int)) none =
      Except.map (fun t => { t with rows := t.rows.take 1 })
        (csvFetch { header := ["a"], rows := [[Value.int 1], [Value.int 2]] }
          [] [] none none) ∧
    csvFetch { header := ["a"], rows := [[Value.int 1], [Value.int 2]] }
        [] [] (some 0) none =
      csvFetch { header := ["a"], rows := [[Value.int 1], [Value.int 2]] }
        [] [] none none ∧
    buildQuery { defaultQuery := none, table := some "test_table",
                 validColumns := ["a"] }
        [] [] (some (1 : Int)) none =
      Except.map (fun r => (r.1 ++ " LIMIT " ++ toString (1 : Int), r.2))
        (buildQuery { defaultQuery := none, table := some "test_table",
                      validColumns := ["a"] }
          [] [] none none) :=
  ⟨Nat.le_refl 1,
   (C8_limit_amended
     { header := ["a"], rows := [[Value.int 1], [Value.int 2]] }
     { header := [], rows := [] }
     { defaultQuery := none, table := some "test_table", validColumns := ["a"] }
     [] [] [] [] none none 1).1 (Nat.le_refl 1),
   (C8_limit_amended
     { header := ["a"], rows := [[Value.int 1], [Value.int 2]] }
     { header := [], rows := [] }
     { defaultQuery := none, table := some "test_table", validColumns := ["a"] }
     [] [] [] [] none none 1).2.2.1,
   (C8_limit_amended
     { header := ["a"], rows := [[Value.int 1], [Value.int 2]] }
     { header := [], rows := [] }
     { defaultQuery := none, table := some "test_table", validColumns := ["a"] }
     [] [] [] [] none none 1).2.2.2.2.2 rfl (Nat.le_refl 1)⟩

/-! ## Claim C7 -/

theorem readCsv_rows_length (raw : Table) (pd : Option (List String)) :
    (readCsv raw pd).rows.length = raw.rows.length := by
  cases pd with
  | none => rfl
  | some l =>
      cases l with
      | nil => rfl
      | cons a t => simp [readCsv, convertCols]

/-- Counterexample to C7 as stated: a File source over an 11-row file
reports `row_count = 11` from `get_schema` — the full dataset is loaded
and measured, not a sample of at most 10 rows. -/
theorem C7_counterexample_file_schema_full_rowcount :
    csvGetSchemaRowCount ".csv"
        { header := ["a"], rows := List.replicate 11 [Value.int 1] } none =
      .ok 11 ∧ ¬ (11 ≤ 10) :=
  ⟨rfl, by decide⟩

/-- Claim C7 (amended): only the HTTP driver materializes a bounded sample
— its `get_schema` fetches with limit 10 and reports the sample size
(at most 10 rows); `get_schema` of the File driver loads the whole file
and reports the true row count of the entire dataset, for CSV, TSV and
JSON files alike. -/
theorem C7_schema_sample_amended (data raw : Table) (pd : Option (List String)) :
    apiGetSchemaRowCount data = min data.rows.length 10 ∧
    csvGetSchemaRowCount ".csv" raw pd = .ok raw.rows.length ∧
    csvGetSchemaRowCount ".tsv" raw pd = .ok raw.rows.length ∧
    csvGetSchemaRowCount ".json" raw pd = .ok raw.rows.length := by
  refine ⟨?_, ?_, ?_, ?_⟩
  · simp [apiGetSchemaRowCount, apiFetch, applyLimitTable, parseDatetimeColumns,
      convertCols, pdHead, Nat.min_comm]
  · simp [csvGetSchemaRowCount, csvLoadFile, readCsv_rows_length, Except.map]
  · simp [csvGetSchemaRowCount, csvLoadFile, readCsv_rows_length, Except.map]
  · simp [csvGetSchemaRowCount, csvLoadFile, readJson, convertCols, Except.map]

/-! ## Claim C6 -/

theorem sortTable_fst_header (t : Table) (ob : String) :
    ((sortTable t ob).1).header = t.header := by
  cases h : ob.data.isEmpty with
  | true => simp [sortTable, h]
  | false =>
      simp only [sortTable, h]
      cases h2 : t.header.contains (parseOrderSpec ob).1 <;> simp [h2]

theorem applyLimitTable_header (lim : Option Int) (t : Table) :
    (applyLimitTable lim t).header = t.header := by
  cases lim with
  | none => rfl
  | some n =>
      simp only [applyLimitTable]
      split <;> rfl

/-- Counterexample to C6 as stated: on a File source, requesting a column
that does not exist is not silently dropped — `df[columns]` raises a
`KeyError`, so the fetch fails instead of returning the known columns. -/
theorem C6_counterexample_csv_unknown_column_errors :
    csvFetch { header := ["a"], rows := [[Value.int 1]] } ["a", "b"] [] none none =
      .error "KeyError: [b] not in index" := rfl

/-- Claim C6 (amended): the HTTP driver silently drops unknown requested
columns — the result has exactly the requested-and-present columns, in
the requested order — but the File driver instead fails the whole fetch
with a key error as soon as any requested column is absent. -/
theorem C6_column_selection_amended
    (data t0 : Table) (cols : List String)
    (fils : List (String × FilterVal)) (lim : Option Int) (ob : Option String)
    (hne : cols ≠ []) :
    (apiFetch data cols lim ob).header =
        cols.filter (fun c => data.header.contains c) ∧
    ∀ c ∈ cols, t0.header.contains c = false →
      ∃ e, csvFetch t0 cols fils lim ob = .error e := by
  have hie : cols.isEmpty = false := by
    cases cols with
    | nil => exact absurd rfl hne
    | cons a l => rfl
  constructor
  · simp only [apiFetch]
    rw [applyLimitTable_header]
    cases ob with
    | none => simp [hie, apiSelect, parseDatetimeColumns, convertCols]
    | some o =>
        rw [sortTable_fst_header]
        simp [hie, apiSelect, parseDatetimeColumns, convertCols]
  · intro c hc hcont
    have hmiss : c ∈ cols.filter (fun x => !t0.header.contains x) :=
      List.mem_filter.mpr ⟨hc, by rw [hcont]; rfl⟩
    have hmne : (cols.filter (fun x => !t0.header.contains x)).isEmpty = false := by
      cases hf : cols.filter (fun x => !t0.header.contains x) with
      | nil => rw [hf] at hmiss; cases hmiss
      | cons a l => rfl
    refine ⟨"KeyError: " ++ toString (cols.filter (fun x => !t0.header.contains x)) ++
      " not in index", ?_⟩
    have hsel : selectColumns t0 cols =
        .error ("KeyError: " ++
          toString (cols.filter (fun x => !t0.header.contains x)) ++
          " not in index") := by
      simp only [selectColumns]
      rw [if_neg (by intro h; rw [hmne] at h; exact Bool.false_ne_true h)]
      rfl
    simp only [csvFetch, csvTransform, csvSelectFilterSort, hie, hsel,
      Bool.false_eq_true, if_false]
    rfl

/-- Witness for C6: requesting columns y and z from a backend exposing
x and y — HTTP keeps exactly y; the File driver fails with a key error
because of z. -/
theorem C6_witness :
    (["y", "z"] ≠ ([] : List String)) ∧
    (apiFetch { header := ["x", "y"], rows := [] } ["y", "z"] none none).header =
      List.filter (fun c => List.contains ["x", "y"] c) ["y", "z"] ∧
    ∃ e, csvFetch { header := ["x", "y"], rows := [] } ["y", "z"] [] none none =
      .error e :=
  ⟨by decide,
   (C6_column_selection_amended
     { header := ["x", "y"], rows := [] } { header := ["x", "y"], rows := [] }
     ["y", "z"] [] none none (by decide)).1,
   (C6_column_selection_amended
     { header := ["x", "y"], rows := [] } { header := ["x", "y"], rows := [] }
     ["y", "z"] [] none none (by decide)).2 "z" (by decide) (by decide)⟩

/-! ## Claim C5 -/

/-- Counterexample to C5 as stated: a JSON file with a column literally
named date holding date strings is auto-parsed to datetimes by
`pd.read_json`'s default `convert_dates`, although no `parse_dates`
config entry was given — the column does not remain string-typed. -/
theorem C5_counterexample_json_auto_parses_dates :
    csvLoadFile ".json" { header := ["date"], rows := [[Value.str "2024-01-01"]] }
        none =
      .ok { header := ["date"], rows := [[Value.date "2024-01-01"]] } ∧
    Value.date "2024-01-01" ≠ Value.str "2024-01-01" :=
  ⟨by decide, by decide⟩

/-- Claim C5 (amended): for CSV and TSV files, a File driver constructed
without `parse_dates` performs no data-column date parsing at load time
— the falsy config value becomes `parse_dates=True`, which directs
pandas at the index only, and no `index_col` is configured, so the
loaded table is exactly the raw parse and every date-like column stays
string-typed. JSON files are instead read with `pd.read_json` defaults,
which auto-convert fully-parseable date-named columns, and the
`parse_dates` config entry is never passed to the JSON reader at all. -/
theorem C5_csv_no_auto_date_parsing_amended (raw : Table)
    (pd : Option (List String)) :
    csvLoadFile ".csv" raw none = .ok raw ∧
    csvLoadFile ".tsv" raw none = .ok raw ∧
    csvLoadFile ".json" raw pd = .ok (readJson raw) :=
  ⟨rfl, rfl, rfl⟩

/-! ## Claim C3 -/

/-- Claim C3 is violated by the code: `fetch()` with no arguments returns
the cached frame itself. First fetch on a fresh driver returns a
reference to the newly cached object (address 0 — the cache address);
mutating that returned object in place then makes the next no-argument
fetch return the mutated table instead of the file contents. The
repository tests (test_fetch_returns_copy, test_csv_cache_returns_copy)
require the opposite. -/
theorem C3_fetch_returns_cache_alias_scenario :
    csvFetchRef { header := ["value"], rows := [[Value.int 10]] }
        { cache := none } { objs := [] } [] [] none none =
      .ok (0, { cache := some 0 },
           { objs := [{ header := ["value"], rows := [[Value.int 10]] }] }) ∧
    heapSet { objs := [{ header := ["value"], rows := [[Value.int 10]] }] } 0
        { header := ["value"], rows := [[Value.int 9990]] } =
      { objs := [{ header := ["value"], rows := [[Value.int 9990]] }] } ∧
    csvFetchRef { header := ["value"], rows := [[Value.int 10]] }
        { cache := some 0 }
        { objs := [{ header := ["value"], rows := [[Value.int 9990]] }] }
        [] [] none none =
      .ok (0, { cache := some 0 },
           { objs := [{ header := ["value"], rows := [[Value.int 9990]] }] }) ∧
    ({ header := ["value"], rows := [[Value.int 9990]] } : Table) ≠
      { header := ["value"], rows := [[Value.int 10]] } :=
  ⟨rfl, rfl, rfl, by decide⟩

/-! ## Claim C4 -/

/-- Claim C4 is violated by the code: registering a structurally valid CSV
source does not return a confirmation string — `register` calls
`source.validate()` eagerly, but neither `CSVSource` nor the
`DataSource` base class defines a validate method, so the call raises
`AttributeError`. The repository tests (test_base_validate_is_defined,
test_base_validate_noop, test_csv_validate_ok) require a no-op default
success instead. -/
theorem C4_register_csv_raises_attribute_error :
    registerSource
        { name := "sales", type := .csv,
          config := { entries := [("path", Value.str "data.csv")] } } =
      .error "AttributeError: object has no attribute named validate" :=
  rfl

end DataAgent
